import Mathlib

/-!
Verification development for the go-radit registry-ingestion / OID-tree
assembly engine.  The Go source (internal/iso/pen.go, internal/common,
the radit driver) is shallowly embedded below: pure string helpers are
Lean functions over `String`/`List Char`, the stateful tree/authority
store is explicit state passing over `DITState`, fallible operations
return `Option String` error components.  Constructs belonging to the
external collaborator library (go-radir) and to curated configuration
tables absent from the source tree are modelled from the specification
document and are marked as such in their doc comments.
-/

set_option maxRecDepth 4000

namespace Radit

/-! ## Go string helpers (embedding strings.* as used by the source) -/

/-- Whitespace as trimmed by Go strings.TrimSpace (ASCII subset). -/
def isSpaceGo (c : Char) : Bool :=
  c = ' ' || c = '\t' || c = '\n' || c = '\r'

/-- Go strings.TrimSpace. -/
def goTrimSpace (s : String) : String :=
  ⟨(((s.data.dropWhile isSpaceGo).reverse).dropWhile isSpaceGo).reverse⟩

/-- Go strings.TrimLeft with a cutset string. -/
def goTrimLeft (s cutset : String) : String :=
  ⟨s.data.dropWhile (fun c => cutset.data.contains c)⟩

/-- Go strings.TrimRight with a cutset string. -/
def goTrimRight (s cutset : String) : String :=
  ⟨((s.data.reverse).dropWhile (fun c => cutset.data.contains c)).reverse⟩

/-- Go strings.ToLower (ASCII). -/
def goLower (s : String) : String := ⟨s.data.map Char.toLower⟩

/-- Go strings.ToUpper (ASCII). -/
def goUpper (s : String) : String := ⟨s.data.map Char.toUpper⟩

/-- Splitter on a single separator character, matching Go strings.Split
with a one-character separator (the only form the source uses). -/
def splitChAux (sep : Char) : List Char → List Char → List (List Char)
  | [], acc => [acc.reverse]
  | c :: rest, acc =>
    if c = sep then acc.reverse :: splitChAux sep rest []
    else splitChAux sep rest (c :: acc)

/-- Go strings.Split with a one-character separator. -/
def goSplit (s : String) (sep : Char) : List String :=
  (splitChAux sep s.data []).map (fun l => ⟨l⟩)

/-- Go strings.HasPrefix. -/
def goHasPfx (s pfx : String) : Bool := pfx.data.isPrefixOf s.data

/-- Go strings.HasSuffix. -/
def goHasSfx (s sfx : String) : Bool := sfx.data.isPrefixOf s.data.reverse |> fun _ =>
  sfx.data.reverse.isPrefixOf s.data.reverse

/-- Go strings.Contains, defined recursively over the subject. -/
def containsAux (pat : List Char) : List Char → Bool
  | [] => pat.isEmpty
  | c :: rest => pat.isPrefixOf (c :: rest) || containsAux pat rest

/-- Go strings.Contains. -/
def goContains (s pat : String) : Bool := containsAux pat.data s.data

/-- Go strings.Index for a substring pattern; -1 when absent. -/
def indexOfAux (pat : List Char) : List Char → Int
  | [] => if pat.isEmpty then 0 else -1
  | c :: rest =>
    if pat.isPrefixOf (c :: rest) then 0
    else
      let i := indexOfAux pat rest
      if i = -1 then -1 else i + 1

/-- Go strings.Index. -/
def goIndex (s pat : String) : Int := indexOfAux pat.data s.data

/-- Go strings.IndexRune; -1 when absent. -/
def goIndexRune (s : String) (c : Char) : Int := goIndex s ⟨[c]⟩

/-- Go strings.CutPrefix. -/
def goCutPfx (s pfx : String) : String × Bool :=
  if goHasPfx s pfx then (⟨s.data.drop pfx.data.length⟩, true) else (s, false)

/-- Replacement worker over character lists, structurally recursive on
a fuel that the wrapper sets to the subject's length — every step
consumes at least one character (the pattern is always nonempty at the
source's call sites; an empty pattern performs no replacement here),
so the fuel never runs out before the subject does. -/
def replaceAux (pat rep : List Char) : Nat → List Char → List Char
  | _, [] => []
  | 0, l => l
  | fuel + 1, c :: rest =>
    if pat ≠ [] ∧ pat.isPrefixOf (c :: rest) then
      rep ++ replaceAux pat rep fuel ((c :: rest).drop pat.length)
    else
      c :: replaceAux pat rep fuel rest

/-- Go strings.ReplaceAll. -/
def goReplace (s pat rep : String) : String :=
  ⟨replaceAux pat.data rep.data s.data.length s.data⟩

/-- Byte-prefix slice `s[:i]` (character-indexed; source data is ASCII). -/
def goTake (s : String) (i : Nat) : String := ⟨s.data.take i⟩

/-- Byte-suffix slice `s[i:]` (character-indexed; source data is ASCII). -/
def goDrop (s : String) (i : Nat) : String := ⟨s.data.drop i⟩

/-- Decimal digit list to number. -/
def digitsToNat (l : List Char) : Nat :=
  l.foldl (fun n c => n * 10 + (c.toNat - '0'.toNat)) 0

/-- Parse a nonempty all-digit string as a natural number, as
strconv.Atoi does on such inputs; none otherwise. -/
def parseNat (s : String) : Option Nat :=
  if s.data ≠ [] ∧ s.data.all Char.isDigit then some (digitsToNat s.data) else none

/-- fmt.Sscanf with verb %d: skip leading whitespace, read an optional
sign and a nonempty digit run; on failure the destination keeps its
previous value. -/
def sscanfInt (line : String) (prev : Int) : Int :=
  let l := line.data.dropWhile isSpaceGo
  match l with
  | '-' :: rest =>
    let ds := rest.takeWhile Char.isDigit
    if ds ≠ [] then -(digitsToNat ds : Int) else prev
  | _ =>
    let ds := l.takeWhile Char.isDigit
    if ds ≠ [] then (digitsToNat ds : Int) else prev

/-- strconv.Itoa for the int values the source feeds it. -/
def itoaInt (i : Int) : String :=
  if i < 0 then "-" ++ Nat.repr i.natAbs else Nat.repr i.natAbs

/-! ## internal/common helpers (embedded from src/internal/common/util.go) -/

/-- common.IsNumber: nonempty and all decimal digits. -/
def IsNumber (n : String) : Bool :=
  if n.data.length = 0 then false else n.data.all Char.isDigit

/-- common.RemoveNL: replace each newline with the two-character
sequence backslash-n. -/
def RemoveNL (s : String) : String := goReplace s "\n" "\\n"

/-- Inner loop of common.CondenseWHSP: collapse runs of space/tab to a
single space. -/
def condenseAux : Bool → List Char → List Char
  | _, [] => []
  | last, c :: rest =>
    if c = '\t' ∨ c = ' ' then
      if last then condenseAux true rest else ' ' :: condenseAux true rest
    else
      c :: condenseAux false rest

/-- common.CondenseWHSP. -/
def CondenseWHSP (b : String) : String := ⟨condenseAux false (goTrimSpace b).data⟩

/-- URI prefix constants from internal/common. -/
def RFCURIPfx : String := "https://datatracker.ietf.org/doc/html/"

def RFCErrataPfx : String := "https://www.rfc-editor.org/errata_search.php?eid="

def IANAAssignmentsPfx : String := "https://iana.org/assignments/"

/-! ## Modelled collaborator layer (go-radir)

The go-radir entry/attribute model is an external collaborator of this
repository (spec section 6); its code is not part of the source tree.
The definitions below are modelled from the spec: the identifier
grammar, the numeric-path predicate, the node/tree store with
get-or-create allocation and lookup, and the authority (registrant)
entity with its DN generator. -/

/-- Modelled from the spec: character legal after the first position of
an X.680 identifier. -/
def isIdentTailChar (c : Char) : Bool :=
  c.isLower || c.isUpper || c.isDigit || c = '-'

/-- Modelled from the spec: radir.IsIdentifier, the X.680 identifier
grammar — a lowercase letter followed by letters, digits and hyphens,
with no doubled hyphen and no trailing hyphen. -/
def IsIdentifier (s : String) : Bool :=
  match s.data with
  | [] => false
  | c :: rest =>
    c.isLower && rest.all isIdentTailChar &&
    !(containsAux ['-', '-'] (c :: rest)) && ((c :: rest).getLast? ≠ some '-')

/-- Modelled from the spec: radir.IsNumericOID, a dot-delimited numeric
path of at least two arcs, each a nonempty digit run. -/
def IsNumericOID (s : String) : Bool :=
  let toks := goSplit s '.'
  decide (2 ≤ toks.length) && toks.all IsNumber

/-- Modelled from the spec: one vertex of the OID tree.  The field set
is the collaborator contract: numeric path, number form, canonical dot
string, symbolic identifier, bracketed ASN.1 string, DN, description,
free-text info, lifecycle status, provenance URI, range terminus,
linked authority DNs, and the inline (combined-policy) contact
fields. -/
structure Node where
  path : List Nat
  nStr : String
  dotNot : String
  identifier : String
  asn1Not : String
  dn : String
  description : String
  info : String
  status : String
  uri : String
  range : String
  curAuths : List String
  combCN : String
  combO : String
  combEmail : String
deriving DecidableEq

/-- Modelled from the spec: a contact/authority entity
(radir.Registrant with its current-authority fields). -/
structure Registrant where
  dn : String
  cn : String
  o : String
  email : String
  uri : String
  descr : String
deriving DecidableEq

/-- Modelled from the spec: the active contact-attachment policy of the
DIT profile (dedicated, combined, or neither). -/
inductive Policy where
  | dedicated
  | combined
  | other
deriving DecidableEq

/-- Modelled from the spec: the in-memory assembly state — the tree
store (insertion-ordered node list keyed by numeric path), the ordered
registrant collection, the SMI person/expert keyed map, the DN
sequence counter, and the profile switches. -/
structure DITState where
  tree : List Node
  registrants : List Registrant
  people : List (String × Registrant)
  dnSeq : Nat
  policy : Policy
  twoD : Bool
deriving DecidableEq

/-- Association-list lookup (first match), the model of Go map reads. -/
def alookup {α : Type} (l : List (String × α)) (k : String) : Option α :=
  (l.find? (fun p => p.1 == k)).map (fun p => p.2)

/-- Join with separator. -/
def joinSep (sep : String) : List String → String
  | [] => ""
  | [x] => x
  | x :: xs => x ++ sep ++ joinSep sep xs

/-- Canonical dot string of a numeric path. -/
def pathToDot (p : List Nat) : String := joinSep "." (p.map Nat.repr)

/-- Tree lookup by numeric path; never creates. -/
def findNode (t : List Node) (p : List Nat) : Option Node :=
  t.find? (fun n => n.path == p)

/-- Pointwise node update at a numeric path. -/
def updNode (t : List Node) (p : List Nat) (f : Node → Node) : List Node :=
  t.map (fun n => if n.path == p then f n else n)

/-- Modelled from the spec: a freshly created node.  The symbolic
identifier falls back to the bare numeric arc when the supplied label
is empty (spec sections 4.2 and 7: legalization failure "falls back to
the bare numeric arc as the identifier"). -/
def mkNode (p : List Nat) (nStr ident : String) : Node :=
  { path := p, nStr := nStr, dotNot := pathToDot p,
    identifier := if ident = "" then nStr else ident,
    asn1Not := "", dn := "", description := "", info := "", status := "",
    uri := "", range := "", curAuths := [], combCN := "", combO := "",
    combEmail := "" }

/-- Get-or-create at one path (idempotent; appends in insertion order). -/
def ensureNode (t : List Node) (p : List Nat) (nStr ident : String) : List Node :=
  match findNode t p with
  | some _ => t
  | none => t ++ [mkNode p nStr ident]

/-- One arc of a parsed allocation request: optional label plus number. -/
structure Arc where
  name : String
  num : Nat
deriving DecidableEq

/-- Create every missing node along a run of arcs beneath a current
path, shallowest first; returns the updated tree and the leaf path. -/
def allocWalk : List Node → List Nat → List Arc → List Node × List Nat
  | t, cur, [] => (t, cur)
  | t, cur, a :: rest =>
    let p := cur ++ [a.num]
    allocWalk (ensureNode t p (Nat.repr a.num) a.name) p rest

/-- Parse one token of a bracketed notation: either name(number) or a
bare number. -/
def parseArcTok (t : String) : Option Arc :=
  let i := goIndexRune t '('
  if i = -1 then
    if IsNumber t then some ⟨"", digitsToNat t.data⟩ else none
  else
    let nm := goTake t i.toNat
    let inside := goTrimRight (goDrop t (i.toNat + 1)) ")"
    if IsNumber inside then some ⟨nm, digitsToNat inside.data⟩ else none

/-- Parse the arcs of a bracketed ASN.1 notation string. -/
def parseNotationArcs (s : String) : List Arc :=
  let inner := goTrimRight (goTrimLeft (goTrimSpace s) "\x7b") "\x7d"
  ((goSplit inner ' ').filter (fun w => w ≠ "")).filterMap parseArcTok

/-- Parse a dot-delimited numeric path. -/
def parseDotPath (s : String) : Option (List Nat) :=
  let toks := goSplit s '.'
  if toks ≠ [] ∧ toks.all IsNumber then
    some (toks.map (fun t => digitsToNat t.data))
  else none

/-- Modelled from the spec: Registration.Allocate on a root node —
accepts a bracketed notation or a dot notation, creates every missing
node beneath the root along the path (idempotent get-or-create), and
returns the leaf path.  A leading arc equal to the root's own arc
denotes the root itself. -/
def allocateFrom (t : List Node) (root : Node) (input : String) : List Node × List Nat :=
  let arcs : List Arc :=
    if goHasPfx (goTrimSpace input) "\x7b" then parseNotationArcs input
    else
      match parseDotPath input with
      | some ns => ns.map (fun n => ⟨"", n⟩)
      | none => []
  match arcs with
  | [] => (t, root.path)
  | a :: rest =>
    if root.path == [a.num] then allocWalk t root.path rest
    else allocWalk t root.path arcs

/-- Modelled from the spec: Registration.Walk — pure lookup by dot
notation; never creates. -/
def walkDot (t : List Node) (s : String) : Option Node :=
  match parseDotPath s with
  | some p => findNode t p
  | none => none

/-- Modelled from the spec: the pre-initialized ISO root (root index 1). -/
def isoRoot : Node :=
  { path := [1], nStr := "1", dotNot := "1", identifier := "iso",
    asn1Not := "{iso(1)}", dn := "n=1", description := "", info := "",
    status := "", uri := "", range := "", curAuths := [], combCN := "",
    combO := "", combEmail := "" }

/-- DIT.ISO(): initialize the ISO root on first access. -/
def ensureISO (st : DITState) : DITState :=
  match findNode st.tree [1] with
  | some _ => st
  | none => { st with tree := st.tree ++ [isoRoot] }

/-- DIT.Prime for root 1: allocate each catalogue notation beneath the
ISO root. -/
def primeISO (st : DITState) (nodes : List String) : DITState :=
  let st1 := ensureISO st
  { st1 with tree := nodes.foldl (fun t s => (allocateFrom t isoRoot s).1) st1.tree }

/-- Modelled from the spec: radir.RegistrantDNGenerator — a fresh DN
from the run's DN sequence counter. -/
def genDN (k : Nat) : String := "registrantID=r" ++ Nat.repr k ++ ",ou=Registrants"

/-- Modelled from the spec: DN construction from a dot notation under
the two- or three-dimensional layout policy.  The layout choice is
opaque to the assembly engine; the model keeps the dot string tagged
with the dimension. -/
def dnOfDot (twoD : Bool) (dot : String) : String :=
  (if twoD then "dn2d:" else "dn3d:") ++ dot

/-- Curated configuration tables.  Modelled from the spec: the
identifier exception table (i2i), the known-missing-name tables, the
missing registry URN table and the hand-maintained supplemental
allocation list are immutable configuration data loaded at startup;
their contents live outside the source tree, so they are parameters of
the embedding. -/
structure Config where
  i2i : List (String × String)
  missingRecordNames : List (String × List (String × String))
  missingRegistryURNs : List (String × String)
  jesseOID : List String

/-! ## PEN registry embedding (src/internal/iso/pen.go, flat parser) -/

/-- The pen record: one registered Private Enterprise Number
(pen.go lines 35-40). -/
structure Pen where
  decimal : Int
  name : String
  contact : String
  email : String
deriving DecidableEq

/-- Go zero value of pen, the scanner's initial accumulator
(`var ent pen` in LoadPENRegistry). -/
def penZero : Pen := ⟨0, "", "", ""⟩

/-- The scanner's reset accumulator, `pen{Decimal: -1}`. -/
def penReset : Pen := ⟨-1, "", "", ""⟩

/-- One iteration of the LoadPENRegistry scan loop
(pen.go lines 189-210): the four-case switch on nonblank lines
(Decimal, Name, Contact cases continue; completing Email falls through)
and the emit-and-reset check reached on fall-through or blank lines. -/
def scanStep (acc : Pen × List Pen) (line : String) : Pen × List Pen :=
  let ent := acc.1
  let outs := acc.2
  if goTrimSpace line ≠ "" then
    if ent.decimal = -1 then
      ({ ent with decimal := sscanfInt line ent.decimal }, outs)
    else if ent.name = "" then
      ({ ent with name := goTrimSpace line }, outs)
    else if ent.contact = "" then
      ({ ent with contact := goTrimSpace line }, outs)
    else
      let ent1 := if ent.email = "" then { ent with email := goTrimSpace line } else ent
      if ent1.decimal ≠ -1 then (penReset, outs ++ [ent1]) else (ent1, outs)
  else
    if ent.decimal ≠ -1 then (penReset, outs ++ [ent]) else (ent, outs)

/-- The full scan of the post-header lines of the flat registry. -/
def scanPEN (lines : List String) : List Pen :=
  (lines.foldl scanStep (penZero, [])).2

/-- Conditional field application of the registrant population loops:
a field is applied unless it is empty or the literal none marker
(pen.go lines 122, 139). -/
def applyIf {α : Type} (field : String) (f : String → α → α) (x : α) : α :=
  if field ≠ "---none---" ∧ field ≠ "" then f field x else x

/-- pen.handleRegistrant (pen.go lines 103-148): attach the four
record fields to a dedicated registrant or to the child's inline
combined-authority fields, per the active policy. -/
def penHandleRegistrant (r : Pen) (childPath : List Nat) (st : DITState) : DITState :=
  match st.policy with
  | Policy.dedicated =>
    let dn := genDN st.dnSeq
    let athy : Registrant :=
      { dn := dn, cn := "", o := "", email := "", uri := "", descr := "" }
    let athy := applyIf r.name (fun v a => { a with o := v }) athy
    let athy := applyIf r.name (fun v a => { a with descr := v }) athy
    let athy := applyIf r.contact (fun v a => { a with cn := v }) athy
    let athy := applyIf r.email (fun v a => { a with email := v }) athy
    let t1 := updNode st.tree childPath (fun n =>
      applyIf r.name (fun v nd => { nd with description := v })
        { n with curAuths := n.curAuths ++ [dn] })
    { st with tree := t1, registrants := st.registrants ++ [athy], dnSeq := st.dnSeq + 1 }
  | Policy.combined =>
    let t1 := updNode st.tree childPath (fun n =>
      applyIf r.email (fun v nd => { nd with combEmail := v })
        (applyIf r.contact (fun v nd => { nd with combCN := v })
          (applyIf r.name (fun v nd => { nd with description := v })
            (applyIf r.name (fun v nd => { nd with combO := v }) n))))
    { st with tree := t1 }
  | Policy.other => st

/-- The ASN.1 notation constant entASNPfx (pen.go line 17). -/
def entASNPfx : String :=
  "\x7biso(1) identified-organization(3) dod(6) internet(1) private(4) enterprise(1)"

/-- The dot notation constant entDotPfx (pen.go line 18). -/
def entDotPfx : String := "1.3.6.1.4.1"

/-- One iteration of the penRegistry.unmarshal loop (pen.go lines
75-92): create the child beneath 1.3.6.1.4.1, set its DN, attach the
registrant data, and on number form 56521 load the supplemental
curated allocations. -/
def penUnmarshalStep (cfg : Config) (parentPath : List Nat) (st : DITState) (ent : Pen) : DITState :=
  let nStr := itoaInt ent.decimal
  let childPath := parentPath ++ [ent.decimal.toNat]
  let t1 := ensureNode st.tree childPath nStr ""
  let t2 := updNode t1 childPath (fun n => { n with dn := dnOfDot st.twoD n.dotNot })
  let st1 := penHandleRegistrant ent childPath { st with tree := t2 }
  let nAtChild := (findNode st1.tree childPath).map (fun n => n.nStr)
  if nAtChild = some "56521" then
    let st2 := ensureISO st1
    { st2 with tree := cfg.jesseOID.foldl (fun t j => (allocateFrom t isoRoot j).1) st2.tree }
  else st1

/-- penRegistry.unmarshal (pen.go lines 57-95): fail structurally when
the 1.3.6.1.4.1 attachment point is absent, otherwise set the parent's
ASN.1 notation when empty and process every scanned record. -/
def penUnmarshal (cfg : Config) (nums : List Pen) (st : DITState) : DITState × Option String :=
  match walkDot st.tree entDotPfx with
  | none => (st, some "Missing 1.3.6.1.4.1 parent; DIT must be primed before use")
  | some parent =>
    let tASN := updNode st.tree parent.path
      (fun n => { n with asn1Not := "\x7b" ++ entASNPfx ++ "\x7d" })
    let st1 := if parent.asn1Not = "" then { st with tree := tASN } else st
    (nums.foldl (penUnmarshalStep cfg parent.path) st1, none)

/-- LoadPENRegistry (pen.go lines 160-217) with the file already read
into its lines: skip the 16 header lines, run the line scanner, then
unmarshal the scanned records into the tree. -/
def loadPEN (cfg : Config) (lines : List String) (st : DITState) : DITState × Option String :=
  penUnmarshal cfg (scanPEN (lines.drop 16)) st

/-! ## SMI registry embedding (src/internal/iso/pen.go, nested parser)

The XML wire decoding itself is Go stdlib machinery external to the
source; structures below carry the already-decoded element data the
source's types declare.  In particular a note's secondary decode (the
`inner.unmarshalXML` pass extracting condensed text plus embedded
xrefs) is carried as data (`fullText`, `xrefs`) and never fails in
this model. -/

/-- The xref element: type attribute, data attribute, character data. -/
structure Xref where
  typ : String
  data : String
  content : String
deriving DecidableEq

/-- The person element (id attribute, name, uri). -/
structure PersonEl where
  id : String
  name : String
  uri : String
deriving DecidableEq

/-- A note element: raw inner text, its secondary-decoded full text,
title attribute, and extracted xrefs. -/
structure Note where
  text : String
  fullText : String
  title : String
  xrefs : List Xref
deriving DecidableEq

/-- A leaf record: value expression, name, description and xrefs (the
date and recommended fields are never read by the assembly code). -/
structure Record where
  value : String
  name : String
  description : String
  xrefs : List Xref
deriving DecidableEq

/-- The scalar data of one registry element.  `experts` holds the DNs
of the registrant instances the gather pass creates from the expert
text (the model of the registry.experts slice). -/
structure RegData where
  description : String
  id : String
  title : String
  expertText : String
  notes : List Note
  xrefs : List Xref
  records : List Record
  experts : List String

mutual

/-- A recursive registry: its data and sub-registries. -/
inductive Registry where
  | mk (d : RegData) (subs : RegList)

/-- The slice form of registries. -/
inductive RegList where
  | nil
  | cons (r : Registry) (rs : RegList)

end

/-- The top-level SMI document: person list plus registries. -/
structure SMIDoc where
  people : List PersonEl
  registries : RegList

/-- record.obsolete (pen.go lines 339-350): scan the xrefs; the first
one of type note decides by data = 1, the first one of type text
decides by case-folded content = obsolete; other types are passed
over. -/
def obsoleteAux : List Xref → Bool
  | [] => false
  | x :: rest =>
    if x.typ = "note" then x.data = "1"
    else if x.typ = "text" then goLower x.content = "obsolete"
    else obsoleteAux rest

/-- record.obsolete. -/
def recordObsolete (r : Record) : Bool := obsoleteAux r.xrefs

/-- record.processValue (pen.go lines 352-383): classify the value
expression as an infinite range, a finite range, a bare number, or a
full dot notation whose trailing arc is kept; anything else is a
record-local error.  Result: (dot, number, rangeTerminus, err). -/
def processValue (r : Record) : String × String × String × Option String :=
  if goHasSfx r.value " and up" then
    ("", goTake r.value (r.value.data.length - 7), "-1", none)
  else if goIndexRune r.value '-' ≠ -1 then
    let sp := goSplit r.value '-'
    ("", sp.headD "", (sp.drop 1).headD "", none)
  else if IsNumber r.value then
    ("", r.value, "", none)
  else if IsNumericOID r.value then
    let sp := goSplit r.value '.'
    (r.value, sp.getLastD "", "", none)
  else
    ("", "", "", some ("Bad value; not a range, number form or dotNotation: " ++ r.value))

/-- Fuel-indexed legalizeIdentifier (pen.go lines 972-1019).  The
source recurses on the space-separated tokens of its input; since a
token contains no space, the real recursion depth never exceeds two,
so fuel `length + 1` (see `legalizeIdentifier`) always suffices and
the fuel-exhausted branch is unreachable from the wrapper. -/
def legalizeFuel (i2i : List (String × String)) : Nat → String → String
  | 0, _ => ""
  | fuel + 1, inp =>
    if IsIdentifier inp ∨ inp.data.length = 0 then inp
    else
      let retained := goContains (goLower inp) "retained by"
      let c := goCutPfx (goLower inp) "retained by"
      let inp1 := if retained ∧ c.2 then goTrimSpace c.1 else inp
      if retained ∧ c.2 ∧ IsIdentifier inp1 then inp1
      else
        match alookup i2i inp1 with
        | some lup => lup
        | none =>
          let ins := goSplit (goTrimSpace inp1) ' '
          if 1 < ins.length then
            match (ins.map (legalizeFuel i2i fuel)).find? IsIdentifier with
            | some tried => tried
            | none => ""
          else
            let tweaked := goReplace (goLower (ins.headD "")) "_" "-"
            if IsIdentifier tweaked then tweaked
            else
              let tweaked2 := goReplace (goLower (ins.headD "")) "." ""
              if IsIdentifier tweaked2 then tweaked2 else ""

/-- legalizeIdentifier with always-sufficient fuel. -/
def legalizeIdentifier (cfg : Config) (inp : String) : String :=
  legalizeFuel cfg.i2i (inp.data.length + 1) inp

/-- patchMissingName (pen.go lines 1021-1031) over the curated
missing-name tables. -/
def patchMissingName (cfg : Config) (oid leaf : String) : String × Bool :=
  if ¬ IsNumber leaf then ("", false)
  else
    match alookup cfg.missingRecordNames oid with
    | some entry =>
      match alookup entry leaf with
      | some nm => (nm, true)
      | none => ("", false)
    | none => ("", false)

/-- record.processIdentifier (pen.go lines 385-407): for a non-numeric
name, take the name (or the patched missing name, or the description),
legalize it, and fall back to the legalized description or empty. -/
def processIdentifier (cfg : Config) (r : Record) (dot : String) : String :=
  if ¬ IsNumber r.name then
    let ident0 :=
      if r.name = "" then
        let pm := patchMissingName cfg dot r.value
        if ¬ pm.2 ∧ 0 < r.description.data.length then r.description else pm.1
      else r.name
    let ident1 := legalizeIdentifier cfg ident0
    if IsIdentifier ident1 then ident1
    else
      let alt := legalizeIdentifier cfg r.description
      if IsIdentifier alt then alt else ""
  else ""

/-- xref.processDataUsers (pen.go lines 676-742): dispatch on the type
of a data-bearing xref; empty data is ignored; the person case of the
source is commented out and therefore a no-op. -/
def processDataUsers (x : Xref) (nd : Node) : Node :=
  if x.data = "" then nd
  else if x.typ = "rfc" ∨ x.typ = "draft" then
    { nd with uri := RFCURIPfx ++ x.data ++ " " ++ goUpper x.data }
  else if x.typ = "rfc-errata" then
    { nd with uri := RFCErrataPfx ++ x.data ++ " Errata ID " ++ x.data }
  else if x.typ = "uri" then
    if x.content ≠ "" then { nd with uri := x.data ++ " " ++ x.content } else nd
  else if x.typ = "note" then
    if x.data = "1" then { nd with status := "OBSOLETE" } else { nd with info := x.data }
  else nd

/-- xref.processContentUsers (pen.go lines 744-760): registry/text
xrefs write free-text info or mark obsolescence; empty content and the
"Not Defined ?" sentinel are ignored. -/
def processContentUsers (x : Xref) (nd : Node) : Node :=
  if x.content = "Not Defined ?" ∨ x.content = "" then nd
  else if x.typ = "registry" then { nd with info := RemoveNL x.content }
  else if x.typ = "text" then
    let value := CondenseWHSP (RemoveNL x.content)
    if goLower value = "obsolete" then { nd with status := "OBSOLETE" }
    else { nd with info := value }
  else nd

/-- xref.process (pen.go lines 762-769): the classifier dispatch. -/
def xrefProcess (x : Xref) (nd : Node) : Node :=
  if x.typ = "registry" ∨ x.typ = "text" then processContentUsers x nd
  else if x.typ = "rfc" ∨ x.typ = "rfc-errata" ∨ x.typ = "draft" ∨
      x.typ = "note" ∨ x.typ = "uri" ∨ x.typ = "person" then
    processDataUsers x nd
  else nd

/-- Children().Get(number): the child of a parent path whose number
form string equals the given value. -/
def getChildByN (t : List Node) (parentPath : List Nat) (number : String) : Option Node :=
  t.find? (fun n =>
    n.path.length = parentPath.length + 1 && parentPath.isPrefixOf n.path &&
    n.nStr == number)

/-- Lexicographic path order (ascending numeric arc at each level). -/
def pathLe : List Nat → List Nat → Bool
  | [], _ => true
  | _ :: _, [] => false
  | a :: as, b :: bs => if a < b then true else if b < a then false else pathLe as bs

/-- Stable insertion by path order. -/
def insertByPath (n : Node) : List Node → List Node
  | [] => [n]
  | m :: ms => if pathLe n.path m.path then n :: m :: ms else m :: insertByPath n ms

/-- Modelled from the spec: Children().SortByNumberForm — reorder the
store so every node's children appear in ascending numeric arc
order. -/
def sortByNumberForm (t : List Node) : List Node := t.foldr insertByPath []

/-- The person-xref authority linkage of records.unmarshal (pen.go
lines 554-567): resolve the gathered authority by key and attach per
the dedicated or combined policy. -/
def personAttach (x : Xref) (childPath : List Nat) (st : DITState) : DITState :=
  if x.typ = "person" then
    match alookup st.people x.data with
    | some athy =>
      if st.policy = Policy.dedicated then
        let td := updNode st.tree childPath (fun n => { n with curAuths := n.curAuths ++ [athy.dn] })
        { st with tree := td }
      else if st.policy = Policy.combined then
        let tc := updNode st.tree childPath (fun n =>
          { n with combEmail := athy.email, combCN := athy.cn, combO := athy.o, description := athy.descr })
        { st with tree := tc }
      else st
    | none => st
  else st

/-- One iteration of records.unmarshal (pen.go lines 527-570): skip
records with unparsable values or flagged obsolete; otherwise compute
the identifier (falling back to the number form), and when no child
with that number form exists yet, create it, set its range, and run
every xref through the classifier plus the person linkage. -/
def recordsUnmarshalStep (cfg : Config) (parentPath : List Nat) (st : DITState) (rec : Record) : DITState :=
  let pv := processValue rec
  let number := pv.2.1
  let rangeTerm := pv.2.2.1
  let err := pv.2.2.2
  if err.isSome ∨ recordObsolete rec then st
  else
    let pdot := ((findNode st.tree parentPath).map (fun n => n.dotNot)).getD ""
    let ident0 := processIdentifier cfg rec pdot
    let identifier := if ident0.data.length = 0 then number else ident0
    match getChildByN st.tree parentPath number with
    | some _ => st
    | none =>
      let childPath := parentPath ++ [digitsToNat number.data]
      let child0 := mkNode childPath number identifier
      let child1 := if rangeTerm ≠ "" then { child0 with range := rangeTerm } else child0
      let child2 :=
        if goContains child1.identifier "." then { child1 with identifier := identifier }
        else child1
      let st1 := { st with tree := st.tree ++ [child2] }
      rec.xrefs.foldl (fun st x =>
        let stx := { st with tree := updNode st.tree childPath (xrefProcess x) }
        personAttach x childPath stx) st1

/-- records.unmarshal (pen.go lines 523-576): process every record,
then sort the children by number form. -/
def recordsUnmarshal (cfg : Config) (recs : List Record) (parentPath : List Nat) (st : DITState) : DITState :=
  let st1 := recs.foldl (recordsUnmarshalStep cfg parentPath) st
  { st1 with tree := sortByNumberForm st1.tree }

/-- descriptionAndOID (pen.go lines 494-521): strip bracket
punctuation, then scan the space-separated tokens; a token that is a
numeric OID (after trimming trailing dots) becomes the dot path, every
other token overwrites the descriptive label. -/
def descriptionAndOID (descr : String) : String × String :=
  if descr ≠ "" then
    let d1 := goTrimSpace (goReplace descr "[" "")
    let d2 := goTrimSpace (goReplace d1 "]" "")
    let d3 := goTrimSpace (goReplace d2 "(" "")
    let d4 := goTrimSpace (goReplace d3 ")" "")
    let sp := goSplit d4 ' '
    let r := sp.foldl (fun (acc : String × String) w0 =>
      let w := goTrimRight w0 "."
      if IsNumericOID w then (acc.1, w)
      else if 0 < (goSplit w '.').length then (w, acc.2)
      else acc) (d4, "")
    (r.1, goTrimRight r.2 ".")
  else ("", "")

/-- buildASN1Not (pen.go lines 1033-1062): pair the URN description
segments with the numeric arcs (rewriting a second segment "org" to
"identified-organization") when, and only when, the two sequences have
equal length. -/
def buildASN1Not (sp path : List String) : String :=
  if sp.length = path.length ∧ sp.length = path.length then
    let path1 :=
      if 1 < path.length ∧ path.get? 1 = some "org" then
        path.set 1 "identified-organization"
      else path
    let slice := (path1.zip sp).map (fun pr =>
      if ¬ IsNumber pr.1 then pr.1 ++ "(" ++ pr.2 ++ ")" else pr.2)
    "\x7b" ++ joinSep " " slice ++ "\x7d"
  else ""

/-- The note-processing body of registry.unmarshalRecords (pen.go
lines 618-648): compute the cleaned raw text (the Go cutset is the
two-character string backslash-n), attach the condensed full text as
info unless the cleaned text is empty or pure markup, then classify
the note's xrefs after the uri-title / registry-link rewrites. -/
def noteStep (parentPath : List Nat) (st : DITState) (n : Note) : DITState :=
  let clean0 := goTrimSpace n.text
  let clean1 := goTrimLeft clean0 "\\n"
  let clean2 := goTrimRight clean1 "\\n"
  let clean := goTrimRight clean2 "\\n"
  let tInfo := updNode st.tree parentPath
    (fun nd => { nd with info := CondenseWHSP (RemoveNL n.fullText) })
  let st1 :=
    if 0 < n.fullText.data.length ∧ clean ≠ "" ∧ ¬ goHasPfx clean "<" then
      { st with tree := tInfo }
    else st
  n.xrefs.foldl (fun st x =>
    let x1 :=
      if x.typ = "uri" ∧ n.title ≠ "" then { x with content := n.title }
      else if x.typ = "registry" then
        { x with typ := "uri", data := IANAAssignmentsPfx ++ x.data }
      else x
    { st with tree := updNode st.tree parentPath (xrefProcess x1) }) st1

/-- registry srcinfo selection (pen.go lines 583-588): the description,
or the title when the description is absent. -/
def srcinfoOf (r : RegData) : String :=
  if r.title ≠ "" ∧ r.description = "" then r.title else r.description

/-- The phase of registry.unmarshalRecords before the canonical-path
verification: allocate the node for the derived path, link the
gathered experts, classify registry-level xrefs, process notes.
Returns the state and the allocated path. -/
def unmarshalRecordsPre (r : RegData) (st : DITState) : DITState × List Nat :=
  let oid := (descriptionAndOID (srcinfoOf r)).2
  let stI := ensureISO st
  let al := allocateFrom stI.tree isoRoot oid
  let t2 := r.experts.foldl (fun t dnv =>
    updNode t al.2 (fun n => { n with curAuths := n.curAuths ++ [dnv] })) al.1
  let st1 := { stI with tree := t2 }
  let st2 := r.xrefs.foldl (fun st x =>
    { st with tree := updNode st.tree al.2 (xrefProcess x) }) st1
  (r.notes.foldl (noteStep al.2) st2, al.2)

/-- registry.unmarshalRecords (pen.go lines 578-674): derive the dot
path from the description/title (metadata-only registries exit without
error), run the pre-record phase, verify the allocated node's
canonical dot notation against the derived path (mismatch is fatal and
the leaf records are not processed), then set identifier and ASN.1
notation and unmarshal the leaf records. -/
def unmarshalRecords (cfg : Config) (r : RegData) (st : DITState) : DITState × Option String :=
  let dAndO := descriptionAndOID (srcinfoOf r)
  let desc := dAndO.1
  let oid := dAndO.2
  if oid = "" then (st, none)
  else
    let sp := goSplit oid '.'
    let pre := unmarshalRecordsPre r st
    let st3 := pre.1
    let ppath := pre.2
    let dot := ((findNode st3.tree ppath).map (fun n => n.dotNot)).getD ""
    if dot ≠ oid then (st3, some ("Allocation error: " ++ dot ++ " != " ++ oid))
    else
      let dp := goSplit desc '.'
      let pi := if dp.length = sp.length then (dp, dp.getLastD "") else ([], "")
      let tIdent := updNode st3.tree ppath (fun n => { n with identifier := pi.2 })
      let st4 :=
        if ((findNode st3.tree ppath).map (fun n => n.identifier)).getD "" = "" then
          { st3 with tree := tIdent }
        else st3
      let tNot := updNode st4.tree ppath (fun n => { n with asn1Not := buildASN1Not sp pi.1 })
      let st5 := { st4 with tree := tNot }
      (recordsUnmarshal cfg r.records ppath st5, none)

mutual

/-- registry.unmarshal (pen.go lines 818-833): unmarshal the records,
then the sub-registries, stopping at the first error. -/
def registryUnmarshal (cfg : Config) : Registry → DITState → DITState × Option String
  | Registry.mk d subs, st =>
    match unmarshalRecords cfg d st with
    | (st1, some e) => (st1, some e)
    | (st1, none) => regListUnmarshal cfg subs st1

/-- Sequential unmarshal of a registry slice with error
short-circuit. -/
def regListUnmarshal (cfg : Config) : RegList → DITState → DITState × Option String
  | RegList.nil, st => (st, none)
  | RegList.cons r rs, st =>
    match registryUnmarshal cfg r st with
    | (st1, some e) => (st1, some e)
    | (st1, none) => regListUnmarshal cfg rs st1

end

/-- One expert-text item of registry.gatherExperts (pen.go lines
864-886): derive the original key and the cleaned name/organization,
and create-and-push the registrant only when the key is new; the DNs
of the created registrants accumulate as the registry's experts. -/
def expertStep (acc : List String × DITState) (sl0 : String) : List String × DITState :=
  let dns := acc.1
  let st := acc.2
  let orig := goTrimSpace sl0
  let sl1 := goTrimSpace (CondenseWHSP sl0)
  let idx := goIndex sl1 " ("
  let desc := if idx ≠ -1 then "IANA, " ++ goTrimRight (goDrop sl1 (idx.toNat + 2)) ")" else "IANA"
  let sl := if idx ≠ -1 then goTake sl1 idx.toNat else sl1
  if sl ≠ "" then
    match alookup st.people orig with
    | some _ => (dns, st)
    | none =>
      let dn := genDN st.dnSeq
      let athy : Registrant := { dn := dn, cn := sl, o := desc, email := "", uri := "", descr := "" }
      let st1 := { st with people := st.people ++ [(orig, athy)], registrants := st.registrants ++ [athy], dnSeq := st.dnSeq + 1 }
      (dns ++ [dn], st1)
  else (dns, st)

mutual

/-- registry.gatherExperts (pen.go lines 861-892): harvest this
registry's expert text into the authority registry, then recurse into
the sub-registries; returns the registries with their experts lists
filled. -/
def gatherExpertsR : Registry → DITState → Registry × DITState
  | Registry.mk d subs, st =>
    let r1 := (goSplit d.expertText ',').foldl expertStep ([], st)
    let r2 := gatherExpertsL subs r1.2
    (Registry.mk { d with experts := d.experts ++ r1.1 } r2.1, r2.2)

/-- gatherExperts over a registry slice. -/
def gatherExpertsL : RegList → DITState → RegList × DITState
  | RegList.nil, st => (RegList.nil, st)
  | RegList.cons r rs, st =>
    let r1 := gatherExpertsR r st
    let r2 := gatherExpertsL rs r1.2
    (RegList.cons r1.1 r2.1, r2.2)

end

/-- One person element of smiRegistry.gatherRegistrants (pen.go lines
897-934): create-and-push a registrant for a new person id, decoding a
mailto URI into an email address and treating the IANA literal as an
organization name. -/
def personStep (st : DITState) (p : PersonEl) : DITState :=
  match alookup st.people p.id with
  | some _ => st
  | none =>
    let dn := genDN st.dnSeq
    let a0 : Registrant := { dn := dn, cn := p.name, o := "", email := "", uri := "", descr := p.name }
    let a1 :=
      if 0 < p.uri.data.length then
        if goHasPfx p.uri "mailto:" then
          { a0 with email := goReplace (goReplace (goDrop p.uri 7) "&" "@") "%25" "%" }
        else { a0 with uri := p.uri }
      else a0
    let a2 :=
      if 0 < p.name.data.length then
        if p.name = "IANA" then { a1 with o := p.name } else { a1 with cn := p.name }
      else a1
    { st with people := st.people ++ [(p.id, a2)], registrants := st.registrants ++ [a2], dnSeq := st.dnSeq + 1 }

/-- smiRegistry.gatherRegistrants (pen.go lines 894-940): load the
person elements, then gather every registry's experts. -/
def gatherRegistrants (doc : SMIDoc) (st : DITState) : RegList × DITState :=
  gatherExpertsL doc.registries (doc.people.foldl personStep st)

/-- The missing-registry-URN substitution of smiRegistry.unmarshal
(pen.go lines 848-850): when the registry id has a table entry k, the
description becomes the table's value AT k (a second lookup; a missing
second entry yields the empty string, the Go map zero value). -/
def urnSubst (cfg : Config) : Registry → Registry
  | Registry.mk d subs =>
    match alookup cfg.missingRegistryURNs d.id with
    | some k =>
      Registry.mk { d with description := (alookup cfg.missingRegistryURNs k).getD "" } subs
    | none => Registry.mk d subs

/-- The top-level registry loop of smiRegistry.unmarshal with URN
substitution and error short-circuit. -/
def smiRegLoop (cfg : Config) : RegList → DITState → DITState × Option String
  | RegList.nil, st => (st, none)
  | RegList.cons r rs, st =>
    match registryUnmarshal cfg (urnSubst cfg r) st with
    | (st1, some e) => (st1, some e)
    | (st1, none) => smiRegLoop cfg rs st1

/-- smiRegistry.unmarshal (pen.go lines 840-859): gather registrants
and experts, then process every top-level registry. -/
def smiUnmarshal (cfg : Config) (doc : SMIDoc) (st : DITState) : DITState × Option String :=
  let g := gatherRegistrants doc st
  smiRegLoop cfg g.1 g.2

/-- LoadSMIRegistry (pen.go lines 949-965) with the document already
decoded: each load starts with a fresh person map, then unmarshals. -/
def loadSMI (cfg : Config) (doc : SMIDoc) (st : DITState) : DITState × Option String :=
  smiUnmarshal cfg doc { st with people := [] }

/-! ## Driver embedding (the radit package, src/unnamed/part_001) -/

/-- ImportList: the optional sources of one run, keyed smifile /
ldapfile / penfile (both XML keys go through the SMI loader). -/
structure ImportList where
  smifile : Option SMIDoc
  ldapfile : Option SMIDoc
  penfile : Option (List String)

/-- RADIT.Import (part_001 lines 76-101).  A nil ImportList constructs
the "ImportList instance is nil, aborting import" error value but
never assigns it to the named return, so the caller sees a nil error;
otherwise the sources load sequentially and the run stops at the first
error. -/
def Import (cfg : Config) (imp : Option ImportList) (st : DITState) : DITState × Option String :=
  match imp with
  | none => (st, none)
  | some i =>
    let s1 : DITState × Option String :=
      match i.smifile with
      | some doc => loadSMI cfg doc st
      | none => (st, none)
    match s1 with
    | (st1, some e) => (st1, some e)
    | (st1, none) =>
      let s2 : DITState × Option String :=
        match i.ldapfile with
        | some doc => loadSMI cfg doc st1
        | none => (st1, none)
      match s2 with
      | (st2, some e) => (st2, some e)
      | (st2, none) =>
        match i.penfile with
        | some lines => loadPEN cfg lines st2
        | none => (st2, none)

/-! ## Derived views used by the verification statements -/

/-- The canonical dot notation recorded at a path of a tree. -/
def dotView (t : List Node) (p : List Nat) : Option String :=
  (findNode t p).map (fun n => n.dotNot)

/-- The canonical dot notation the store reports for the node that
allocating `oid` beneath the ISO root yields (the quantity
registry.unmarshalRecords verifies against the derived path). -/
def allocDotted (t : List Node) (oid : String) : String :=
  let tI :=
    match findNode t [1] with
    | some _ => t
    | none => t ++ [isoRoot]
  let al := allocateFrom tI isoRoot oid
  (dotView al.1 al.2).getD ""

/-- The derived dot path of a registry (step 1 of the nested walk). -/
def oidOf (r : RegData) : String := (descriptionAndOID (srcinfoOf r)).2

/-- The fatal canonical-path mismatch message of
registry.unmarshalRecords. -/
def mismatchMsg (dot oid : String) : String := "Allocation error: " ++ dot ++ " != " ++ oid

/-- The authority-registry invariant of one import run: the source
keys of the people map are pairwise distinct, and the ordered
registrant collection holds exactly one entry per key. -/
def authInv (st : DITState) : Prop :=
  (st.people.map Prod.fst).Nodup ∧ st.registrants.length = st.people.length

/-! ## Concrete scenario inputs -/

/-- An empty assembly state under a given contact policy. -/
def emptyState (p : Policy) : DITState :=
  { tree := [], registrants := [], people := [], dnSeq := 0, policy := p, twoD := false }

/-- A node whose stored canonical dot notation disagrees with its
numeric path — the situation a priming catalogue that disagrees with
the source produces. -/
def badNode : Node := { mkNode [1, 3] "3" "" with dotNot := "9.9" }

/-- A state seeded with the disagreeing node. -/
def stBad : DITState :=
  { tree := [isoRoot, badNode], registrants := [], people := [], dnSeq := 0,
    policy := Policy.combined, twoD := false }

/-- A registry whose description derives the dot path 1.3. -/
def regC3data : RegData :=
  { description := "bogus 1.3", id := "r1", title := "", expertText := "",
    notes := [], xrefs := [], records := [⟨"7", "seven", "", []⟩], experts := [] }

/-- The C3 scenario SMI document: the mismatching registry alone. -/
def doc3 : SMIDoc := ⟨[], RegList.cons (Registry.mk regC3data RegList.nil) RegList.nil⟩

/-- A plain allocated node for classifier statements. -/
def nd0 : Node := mkNode [1] "1" "a"

/-- A leaf record whose only cross-reference is a note with code 1. -/
def recC4 : Record := ⟨"7", "foo", "", [⟨"note", "1", ""⟩]⟩

/-- A parent state for the record-processing statements: the ISO root
plus a parent node at 1.3. -/
def c4State : DITState :=
  { tree := [isoRoot, mkNode [1, 3] "3" "idthree"], registrants := [], people := [],
    dnSeq := 0, policy := Policy.combined, twoD := false }

/-- The C8 scenario document: a duplicated person id, plus the same
expert name in two registries. -/
def doc8 : SMIDoc :=
  ⟨[⟨"p1", "Jane", "mailto:j&x.y"⟩, ⟨"p1", "Jane Two", ""⟩, ⟨"p2", "IANA", ""⟩],
    RegList.cons
      (Registry.mk
        { description := "", id := "", title := "", expertText := "Jane Q (Stuff), Bob",
          notes := [], xrefs := [], records := [], experts := [] }
        (RegList.cons
          (Registry.mk
            { description := "", id := "", title := "", expertText := "Bob",
              notes := [], xrefs := [], records := [], experts := [] }
            RegList.nil)
          RegList.nil))
      RegList.nil⟩

/-- The priming catalogue of the C1 scenario. -/
def c1Catalog : List String :=
  ["{iso(1) identified-organization(3) dod(6) internet(1) private(4) enterprise(1)}"]

/-- A flat-registry source: a 16-line header, the registry's leading
reserved group, then the ACME group of the scenario. -/
def c1Lines : List String :=
  List.replicate 16 "header" ++
  ["0", "Reserved", "Internet Assigned Numbers Authority", "iana&iana.org"] ++
  ["56521", "ACME", "Jane Doe", "jane@acme.example"]

/-- An empty curated-configuration value. -/
def cfgEmpty : Config :=
  { i2i := [], missingRecordNames := [], missingRegistryURNs := [], jesseOID := [] }

/-- The C1 scenario run: prime root 1 with the enterprise notation,
then import the flat source. -/
def c1Run (p : Policy) : DITState × Option String :=
  loadPEN cfgEmpty c1Lines (primeISO (emptyState p) c1Catalog)

end Radit

namespace Radit

/-! ## Claims -/

/-- C1: after priming root 1 with the enterprise notation and importing
a flat source whose records include the group Decimal=56521, Name=ACME,
Contact=Jane Doe, Email=jane@acme.example, the tree contains a node at
1.3.6.1.4.1.56521 whose symbolic identifier is "56521" (numeric
fallback), and under the active contact policy an authority (dedicated)
or the node's inline contact (combined) bears email
jane@acme.example. -/
theorem pen_scenario_56521 (p : Policy)
    (h : p = Policy.dedicated ∨ p = Policy.combined) :
    ((findNode (c1Run p).1.tree [1, 3, 6, 1, 4, 1, 56521]).map
        (fun n => n.identifier) = some "56521") ∧
    (p = Policy.dedicated →
      ((c1Run p).1.registrants.any (fun a =>
        a.email == "jane@acme.example" &&
        ((findNode (c1Run p).1.tree [1, 3, 6, 1, 4, 1, 56521]).elim false
          (fun n => a.dn ∈ n.curAuths)))) = true) ∧
    (p = Policy.combined →
      ((findNode (c1Run p).1.tree [1, 3, 6, 1, 4, 1, 56521]).map
        (fun n => n.combEmail) = some "jane@acme.example")) := by
  rcases h with h | h <;> subst h <;> refine ⟨by decide, ?_, ?_⟩ <;> intro hp <;>
    first
    | decide
    | cases hp

/-- C1 witness: the theorem applied at the combined policy. -/
theorem pen_scenario_56521_witness :
    (Policy.combined = Policy.dedicated ∨ Policy.combined = Policy.combined) ∧
    (((findNode (c1Run Policy.combined).1.tree [1, 3, 6, 1, 4, 1, 56521]).map
        (fun n => n.identifier) = some "56521") ∧
      (Policy.combined = Policy.dedicated →
        ((c1Run Policy.combined).1.registrants.any (fun a =>
          a.email == "jane@acme.example" &&
          ((findNode (c1Run Policy.combined).1.tree [1, 3, 6, 1, 4, 1, 56521]).elim false
            (fun n => a.dn ∈ n.curAuths)))) = true) ∧
      (Policy.combined = Policy.combined →
        ((findNode (c1Run Policy.combined).1.tree [1, 3, 6, 1, 4, 1, 56521]).map
          (fun n => n.combEmail) = some "jane@acme.example"))) :=
  ⟨Or.inr rfl, pen_scenario_56521 Policy.combined (Or.inr rfl)⟩

/-- C5: when the tree holds no node at 1.3.6.1.4.1, the PEN unmarshal
fails with the structural tree-not-primed error and the state is
returned untouched — no child or ancestor is created. -/
theorem pen_unprimed_fails (cfg : Config) (nums : List Pen) (st : DITState)
    (h : walkDot st.tree entDotPfx = none) :
    penUnmarshal cfg nums st =
      (st, some "Missing 1.3.6.1.4.1 parent; DIT must be primed before use") := by
  unfold penUnmarshal
  rw [h]

/-- C5 witness: the unprimed empty state under the combined policy. -/
theorem pen_unprimed_fails_witness :
    walkDot (emptyState Policy.combined).tree entDotPfx = none ∧
    penUnmarshal cfgEmpty [] (emptyState Policy.combined) =
      ((emptyState Policy.combined),
        some "Missing 1.3.6.1.4.1 parent; DIT must be primed before use") :=
  ⟨by decide, pen_unprimed_fails cfgEmpty [] (emptyState Policy.combined) (by decide)⟩

/-- Lookup through a pointwise update that preserves paths. -/
theorem find?_updNode (t : List Node) (p q : List Nat) (f : Node → Node)
    (hpath : ∀ n, (f n).path = n.path) :
    findNode (updNode t q f) p =
      (findNode t p).map (fun n => if n.path == q then f n else n) := by
  induction t with
  | nil => rfl
  | cons n rest ih =>
    unfold findNode updNode at ih ⊢
    simp only [List.map_cons, List.find?]
    have key : ((if n.path == q then f n else n)).path = n.path := by
      split
      · exact hpath n
      · rfl
    rw [key]
    cases hb : (n.path == p) with
    | true => simp
    | false => exact ih

/-- A pointwise update that preserves paths and dot notations leaves
every dot-notation view unchanged. -/
theorem dotView_updNode (t : List Node) (p q : List Nat) (f : Node → Node)
    (hf : ∀ n, (f n).path = n.path ∧ (f n).dotNot = n.dotNot) :
    dotView (updNode t q f) p = dotView t p := by
  unfold dotView
  rw [find?_updNode t p q f (fun n => (hf n).1)]
  cases findNode t p with
  | none => rfl
  | some n =>
    simp only [Option.map]
    congr 1
    split
    · exact (hf n).2
    · rfl

/-- Dot-notation views are stable under a state fold whose every step
preserves them. -/
theorem dotView_foldl_state {α : Type} (step : DITState → α → DITState)
    (l : List α) (st : DITState) (p : List Nat)
    (h : ∀ st a, dotView (step st a).tree p = dotView st.tree p) :
    dotView (l.foldl step st).tree p = dotView st.tree p := by
  induction l generalizing st with
  | nil => rfl
  | cons a rest ih =>
    rw [List.foldl_cons, ih (step st a), h st a]

/-- Dot-notation views are stable under a tree fold of path- and
dot-preserving pointwise updates. -/
theorem dotView_foldl_tree {α : Type} (l : List α) (t : List Node)
    (q p : List Nat) (fs : α → Node → Node)
    (h : ∀ a n, (fs a n).path = n.path ∧ (fs a n).dotNot = n.dotNot) :
    dotView (l.foldl (fun t a => updNode t q (fs a)) t) p = dotView t p := by
  induction l generalizing t with
  | nil => rfl
  | cons a rest ih =>
    rw [List.foldl_cons, ih (updNode t q (fs a)), dotView_updNode t p q (fs a) (h a)]

/-- The cross-reference classifier never changes a node's numeric path
or canonical dot notation. -/
theorem xrefProcess_path_dot (x : Xref) (n : Node) :
    (xrefProcess x n).path = n.path ∧ (xrefProcess x n).dotNot = n.dotNot := by
  unfold xrefProcess processContentUsers processDataUsers
  dsimp only
  repeat' split
  all_goals exact ⟨rfl, rfl⟩

/-- Note processing never changes a dot-notation view. -/
theorem noteStep_dotView (pp : List Nat) (st : DITState) (n : Note) (p : List Nat) :
    dotView (noteStep pp st n).tree p = dotView st.tree p := by
  unfold noteStep
  dsimp only
  rw [dotView_foldl_state _ _ _ p (fun st2 x => dotView_updNode st2.tree p pp _
    (fun nd => xrefProcess_path_dot _ nd))]
  split
  · exact dotView_updNode _ p pp _ (fun nd => ⟨rfl, rfl⟩)
  · rfl

/-- The canonical dot notation registry.unmarshalRecords verifies is
exactly the one the allocation beneath the ISO root reports: the
expert, xref and note phases in between never touch it. -/
theorem unmarshalRecordsPre_dot (r : RegData) (st : DITState) :
    (dotView (unmarshalRecordsPre r st).1.tree (unmarshalRecordsPre r st).2).getD "" =
      allocDotted st.tree (oidOf r) := by
  unfold unmarshalRecordsPre allocDotted oidOf ensureISO
  dsimp only
  cases hI : findNode st.tree [1] with
  | some n =>
    dsimp only
    rw [dotView_foldl_state _ _ _ _ (fun st2 x => noteStep_dotView _ st2 x _)]
    rw [dotView_foldl_state _ _ _ _ (fun st2 x => dotView_updNode st2.tree _ _ _
      (fun nd => xrefProcess_path_dot _ nd))]
    dsimp only
    rw [dotView_foldl_tree r.experts _ _ _
      (fun dnv n => { n with curAuths := n.curAuths ++ [dnv] }) (fun a nd => ⟨rfl, rfl⟩)]
  | none =>
    dsimp only
    rw [dotView_foldl_state _ _ _ _ (fun st2 x => noteStep_dotView _ st2 x _)]
    rw [dotView_foldl_state _ _ _ _ (fun st2 x => dotView_updNode st2.tree _ _ _
      (fun nd => xrefProcess_path_dot _ nd))]
    dsimp only
    rw [dotView_foldl_tree r.experts _ _ _
      (fun dnv n => { n with curAuths := n.curAuths ++ [dnv] }) (fun a nd => ⟨rfl, rfl⟩)]

/-- registry.unmarshalRecords on a canonical-path mismatch: the fatal
error surfaces and the returned state is exactly the pre-record phase,
so the registry's leaf records are never processed. -/
theorem unmarshalRecords_mismatch (cfg : Config) (r : RegData) (st : DITState)
    (hoid : oidOf r ≠ "")
    (hdot : allocDotted st.tree (oidOf r) ≠ oidOf r) :
    unmarshalRecords cfg r st = ((unmarshalRecordsPre r st).1,
      some (mismatchMsg (allocDotted st.tree (oidOf r)) (oidOf r))) := by
  have hD := unmarshalRecordsPre_dot r st
  unfold dotView at hD
  unfold oidOf at hD hoid hdot
  unfold mismatchMsg oidOf
  unfold unmarshalRecords
  dsimp only
  rw [if_neg hoid]
  rw [hD]
  rw [if_pos hdot]

/-- registry.unmarshal propagates the mismatch error unchanged and
never descends into the sub-registries. -/
theorem registryUnmarshal_mismatch (cfg : Config) (r : RegData) (subs : RegList)
    (st : DITState) (hoid : oidOf r ≠ "")
    (hdot : allocDotted st.tree (oidOf r) ≠ oidOf r) :
    registryUnmarshal cfg (Registry.mk r subs) st = ((unmarshalRecordsPre r st).1,
      some (mismatchMsg (allocDotted st.tree (oidOf r)) (oidOf r))) := by
  unfold registryUnmarshal
  rw [unmarshalRecords_mismatch cfg r st hoid hdot]

/-- The person gather never touches the tree. -/
theorem personStep_tree (st : DITState) (p : PersonEl) :
    (personStep st p).tree = st.tree := by
  unfold personStep
  dsimp only
  repeat' split
  all_goals rfl

/-- Folded person gather never touches the tree. -/
theorem foldl_personStep_tree (ps : List PersonEl) (st : DITState) :
    (ps.foldl personStep st).tree = st.tree := by
  induction ps generalizing st with
  | nil => rfl
  | cons p rest ih => rw [List.foldl_cons, ih, personStep_tree]

/-- The expert gather never touches the tree. -/
theorem expertStep_tree (acc : List String × DITState) (sl : String) :
    (expertStep acc sl).2.tree = acc.2.tree := by
  obtain ⟨dns, st⟩ := acc
  unfold expertStep
  dsimp only
  repeat' split
  all_goals rfl

/-- Folded expert gather never touches the tree. -/
theorem foldl_expertStep_tree (l : List String) (acc : List String × DITState) :
    ((l.foldl expertStep acc)).2.tree = acc.2.tree := by
  induction l generalizing acc with
  | nil => rfl
  | cons s rest ih => rw [List.foldl_cons, ih, expertStep_tree]

/-- The shape of the expert gather on a single leaf registry. -/
theorem gatherExpertsR_nil_shape (d : RegData) (st : DITState) :
    gatherExpertsR (Registry.mk d RegList.nil) st =
      (Registry.mk
        { d with experts := d.experts ++ ((goSplit d.expertText ',').foldl expertStep ([], st)).1 }
        RegList.nil,
        ((goSplit d.expertText ',').foldl expertStep ([], st)).2) := by
  unfold gatherExpertsR gatherExpertsL
  rfl

/-- LoadSMIRegistry on a document whose sole registry's derived path
mismatches the store's canonical notation reports the fatal allocation
error. -/
theorem loadSMI_single_mismatch (cfg : Config) (ps : List PersonEl) (r : RegData)
    (st0 : DITState)
    (hurn : alookup cfg.missingRegistryURNs r.id = none)
    (hoid : oidOf r ≠ "")
    (hdot : allocDotted st0.tree (oidOf r) ≠ oidOf r) :
    (loadSMI cfg ⟨ps, RegList.cons (Registry.mk r RegList.nil) RegList.nil⟩ st0).2 =
      some (mismatchMsg (allocDotted st0.tree (oidOf r)) (oidOf r)) := by
  unfold loadSMI smiUnmarshal gatherRegistrants
  dsimp only
  unfold gatherExpertsL
  rw [gatherExpertsR_nil_shape]
  dsimp only
  unfold gatherExpertsL
  dsimp only
  unfold smiRegLoop
  unfold urnSubst
  dsimp only
  rw [hurn]
  dsimp only
  have htree :
      (((goSplit r.expertText ',').foldl expertStep
        ([], ps.foldl personStep { st0 with people := [] })).2).tree = st0.tree := by
    rw [foldl_expertStep_tree]
    dsimp only
    rw [foldl_personStep_tree]
  rw [registryUnmarshal_mismatch cfg
    { r with experts := r.experts ++ ((goSplit r.expertText ',').foldl expertStep
        ([], ps.foldl personStep { st0 with people := [] })).1 }
    RegList.nil _ hoid (by rw [htree]; exact hdot)]
  dsimp only
  rw [htree]
  rfl

/-- The assembly driver stops the whole run on the first fatal error
from the SMI source and reports it to the caller unchanged: neither
the LDAP source nor the PEN source is loaded afterwards. -/
theorem import_stops_on_smi_error (cfg : Config) (i : ImportList) (st0 : DITState)
    (doc : SMIDoc) (e : String)
    (hsmi : i.smifile = some doc)
    (herr : (loadSMI cfg doc st0).2 = some e) :
    Import cfg (some i) st0 = ((loadSMI cfg doc st0).1, some e) := by
  have hl : loadSMI cfg doc st0 = ((loadSMI cfg doc st0).1, some e) := by
    rw [← herr]
  unfold Import
  dsimp only
  rw [hsmi]
  dsimp only
  rw [hl]

/-- A successful association lookup returns the second component of a
stored pair. -/
theorem alookup_mem {α : Type} (l : List (String × α)) (k : String) (v : α)
    (h : alookup l k = some v) : ∃ p, p ∈ l ∧ p.2 = v := by
  unfold alookup at h
  cases hf : l.find? (fun p => p.1 == k) with
  | none => rw [hf] at h; simp at h
  | some p =>
    rw [hf] at h
    simp at h
    exact ⟨p, List.mem_of_find?_eq_some hf, h⟩

/-- Every branch of the legalization cascade that returns a nonempty
value first checks the identifier grammar, except the curated override
table; under valid overrides the cascade yields the empty string or a
grammar-valid identifier, at every fuel. -/
theorem legalizeFuel_valid (i2i : List (String × String))
    (hvals : ∀ p ∈ i2i, IsIdentifier p.2 = true) (fuel : Nat) (inp : String) :
    legalizeFuel i2i fuel inp = "" ∨ IsIdentifier (legalizeFuel i2i fuel inp) = true := by
  cases fuel with
  | zero => left; rfl
  | succ f =>
    unfold legalizeFuel
    split
    · rename_i h1
      rcases h1 with hv | h0
      · right; exact hv
      · left
        cases inp with
        | mk d =>
          simp only [String.data] at h0
          rw [List.length_eq_zero] at h0
          rw [h0]
    · dsimp only
      split <;>
      · split
        · rename_i h2
          right; exact h2.2.2
        · split
          · rename_i lup hl
            right
            obtain ⟨p, hp, hpe⟩ := alookup_mem _ _ _ hl
            exact hpe ▸ hvals p hp
          · split
            · split
              · rename_i tried hf
                right; exact List.find?_some hf
              · left; rfl
            · split
              · rename_i h3
                right; exact h3
              · split
                · rename_i h4
                  right; exact h4
                · left; rfl

/-- C2: for every input, the identifier legalizer returns either the
empty string or a value satisfying the X.680 identifier grammar (given
that the curated override table — configuration outside the source
tree — holds grammar-valid values); it never returns an invalid
nonempty value. -/
theorem legalizer_valid (cfg : Config)
    (hvals : ∀ p ∈ cfg.i2i, IsIdentifier p.2 = true) (inp : String) :
    legalizeIdentifier cfg inp = "" ∨ IsIdentifier (legalizeIdentifier cfg inp) = true :=
  legalizeFuel_valid cfg.i2i hvals _ inp

/-- C2 witness: the empty override table and the classic illegal
label. -/
theorem legalizer_valid_witness :
    (∀ p ∈ cfgEmpty.i2i, IsIdentifier p.2 = true) ∧
    (legalizeIdentifier cfgEmpty "IEEE802.4" = "" ∨
      IsIdentifier (legalizeIdentifier cfgEmpty "IEEE802.4") = true) :=
  ⟨by simp [cfgEmpty], legalizer_valid cfgEmpty (by simp [cfgEmpty]) "IEEE802.4"⟩

/-- A failed association lookup means the key is absent. -/
theorem alookup_none_notmem {α : Type} (l : List (String × α)) (k : String)
    (h : alookup l k = none) : k ∉ l.map Prod.fst := by
  intro hk
  obtain ⟨p, hp, hpk⟩ := List.mem_map.mp hk
  have hf : l.find? (fun q => q.1 == k) = none := by
    unfold alookup at h
    exact Option.map_eq_none'.mp h
  have hnp := List.find?_eq_none.mp hf p hp
  simp at hnp
  exact hnp hpk

/-- personStep preserves the authority-registry invariant: it either
skips an existing key or appends one fresh key and one registrant. -/
theorem personStep_inv (st : DITState) (p : PersonEl) (h : authInv st) :
    authInv (personStep st p) := by
  unfold personStep
  cases hl : alookup st.people p.id with
  | some a => exact h
  | none =>
    dsimp only
    refine ⟨?_, ?_⟩
    · simp only [List.map_append, List.map_cons, List.map_nil]
      rw [List.nodup_append]
      refine ⟨h.1, List.nodup_singleton _, ?_⟩
      intro a ha hb
      simp at hb
      subst hb
      exact alookup_none_notmem _ _ hl ha
    · simp [h.2]

/-- Inserting a fresh key preserves the authority-registry
invariant. -/
theorem authInv_insert (st : DITState) (key : String) (a : Registrant)
    (h : authInv st) (hl : alookup st.people key = none) :
    authInv { st with people := st.people ++ [(key, a)], registrants := st.registrants ++ [a], dnSeq := st.dnSeq + 1 } := by
  refine ⟨?_, ?_⟩
  · simp only [List.map_append, List.map_cons, List.map_nil]
    rw [List.nodup_append]
    refine ⟨h.1, List.nodup_singleton _, ?_⟩
    intro x hx hb
    simp at hb
    subst hb
    exact alookup_none_notmem _ _ hl hx
  · simp [h.2]

/-- expertStep preserves the authority-registry invariant. -/
theorem expertStep_inv (acc : List String × DITState) (sl : String)
    (h : authInv acc.2) : authInv (expertStep acc sl).2 := by
  obtain ⟨dns, st⟩ := acc
  unfold expertStep
  dsimp only at h ⊢
  repeat' split
  all_goals
    first
    | exact h
    | (rename_i hl; exact authInv_insert _ _ _ h hl)

/-- Invariant preservation over the expert-text items. -/
theorem foldl_expertStep_inv (l : List String) (acc : List String × DITState)
    (h : authInv acc.2) : authInv (l.foldl expertStep acc).2 := by
  induction l generalizing acc with
  | nil => exact h
  | cons s rest ih => exact ih _ (expertStep_inv _ _ h)

mutual

/-- Invariant preservation through one registry's expert gather. -/
theorem gatherExpertsR_inv : ∀ (r : Registry) (st : DITState),
    authInv st → authInv (gatherExpertsR r st).2
  | Registry.mk d subs, st, h => by
    unfold gatherExpertsR
    exact gatherExpertsL_inv subs _ (foldl_expertStep_inv _ _ h)

/-- Invariant preservation through a registry slice's expert gather. -/
theorem gatherExpertsL_inv : ∀ (l : RegList) (st : DITState),
    authInv st → authInv (gatherExpertsL l st).2
  | RegList.nil, _, h => h
  | RegList.cons r rs, st, h => by
    unfold gatherExpertsL
    exact gatherExpertsL_inv rs _ (gatherExpertsR_inv r _ h)

end

/-- Invariant preservation over the person elements. -/
theorem foldl_personStep_inv (ps : List PersonEl) (st : DITState)
    (h : authInv st) : authInv (ps.foldl personStep st) := by
  induction ps generalizing st with
  | nil => exact h
  | cons p rest ih => exact ih _ (personStep_inv _ _ h)

/-- Invariant preservation through the whole gather pass. -/
theorem gatherRegistrants_inv (doc : SMIDoc) (st : DITState)
    (h : authInv st) : authInv (gatherRegistrants doc st).2 :=
  gatherExpertsL_inv _ _ (foldl_personStep_inv _ _ h)

/-- A person element whose id was already gathered is a no-op: nothing
is created, nothing is appended. -/
theorem personStep_existing (st : DITState) (p : PersonEl)
    (h : (alookup st.people p.id).isSome = true) : personStep st p = st := by
  unfold personStep
  cases hl : alookup st.people p.id with
  | none => rw [hl] at h; simp at h
  | some a => rfl

/-- An expert-text item whose original key was already gathered is a
no-op: nothing is created, nothing is appended. -/
theorem expertStep_existing (acc : List String × DITState) (sl : String)
    (h : (alookup acc.2.people (goTrimSpace sl)).isSome = true) :
    expertStep acc sl = acc := by
  obtain ⟨dns, st⟩ := acc
  dsimp only at h
  cases hl : alookup st.people (goTrimSpace sl) with
  | none => rw [hl] at h; simp at h
  | some a =>
    unfold expertStep
    dsimp only
    rw [hl]
    repeat' split
    all_goals
      first
      | rfl
      | (rename_i heq; simp at heq)

/-- C8: over one gather pass of an import run started empty, the people
map holds pairwise-distinct source keys (person ids and expert original
names share one map) and the ordered registrant collection receives
exactly one entry per distinct key — and re-encountering an existing
key, by person element or by expert item, neither creates nor appends
another authority. -/
theorem authority_dedup (doc : SMIDoc) (st : DITState)
    (h0 : st.people = [] ∧ st.registrants = []) :
    authInv (gatherRegistrants doc st).2 ∧
    (∀ (st2 : DITState) (p : PersonEl),
      (alookup st2.people p.id).isSome = true → personStep st2 p = st2) ∧
    (∀ (acc : List String × DITState) (sl : String),
      (alookup acc.2.people (goTrimSpace sl)).isSome = true → expertStep acc sl = acc) := by
  refine ⟨gatherRegistrants_inv doc st ⟨?_, ?_⟩, personStep_existing, expertStep_existing⟩
  · rw [h0.1]; exact List.nodup_nil
  · simp [h0.1, h0.2]

/-- C8 witness: the duplicated-keys document on the empty state. -/
theorem authority_dedup_witness :
    ((emptyState Policy.combined).people = [] ∧
      (emptyState Policy.combined).registrants = []) ∧
    (authInv (gatherRegistrants doc8 (emptyState Policy.combined)).2 ∧
      (∀ (st2 : DITState) (p : PersonEl),
        (alookup st2.people p.id).isSome = true → personStep st2 p = st2) ∧
      (∀ (acc : List String × DITState) (sl : String),
        (alookup acc.2.people (goTrimSpace sl)).isSome = true → expertStep acc sl = acc)) :=
  ⟨⟨rfl, rfl⟩, authority_dedup doc8 (emptyState Policy.combined) ⟨rfl, rfl⟩⟩

/-- C9: Import with a nil ImportList returns a nil error and leaves
the state untouched — the "ImportList instance is nil, aborting
import" error value the source constructs is discarded (never assigned
to the named return), so the caller observes success although nothing
was imported. -/
theorem import_nil_importlist_succeeds (cfg : Config) (st : DITState) :
    Import cfg none st = (st, none) := rfl

/-- C10: a registry- or text-typed cross-reference whose content is
empty or exactly the sentinel "Not Defined ?" is silently ignored by
classification: the annotated node's free-text info and lifecycle
status are unchanged (indeed the whole node is returned as-is). -/
theorem xref_sentinel_ignored (x : Xref) (nd : Node)
    (ht : x.typ = "registry" ∨ x.typ = "text")
    (hc : x.content = "" ∨ x.content = "Not Defined ?") :
    (xrefProcess x nd).info = nd.info ∧ (xrefProcess x nd).status = nd.status ∧
    xrefProcess x nd = nd := by
  have h1 : xrefProcess x nd = nd := by
    unfold xrefProcess processContentUsers
    rcases ht with h | h <;> rcases hc with hcx | hcx <;> simp [h, hcx]
  exact ⟨by rw [h1], by rw [h1], h1⟩

/-- C10 witness: the sentinel content on a registry xref. -/
theorem xref_sentinel_ignored_witness :
    ((Xref.mk "registry" "d" "Not Defined ?").typ = "registry" ∨
      (Xref.mk "registry" "d" "Not Defined ?").typ = "text") ∧
    ((xrefProcess (Xref.mk "registry" "d" "Not Defined ?") nd0).info = nd0.info ∧
      (xrefProcess (Xref.mk "registry" "d" "Not Defined ?") nd0).status = nd0.status ∧
      xrefProcess (Xref.mk "registry" "d" "Not Defined ?") nd0 = nd0) :=
  ⟨Or.inl rfl,
    xref_sentinel_ignored (Xref.mk "registry" "d" "Not Defined ?") nd0
      (Or.inl rfl) (Or.inr rfl)⟩

/-- C7 counterexample: a generic-URI cross-reference with a nonempty
address but no link label does NOT set the node's provenance URI to
the literal address — the classifier leaves the URI untouched, against
the claim's "set provenance URI to the literal address". -/
theorem xref_uri_no_label_counterexample :
    (xrefProcess (Xref.mk "uri" "https://example.com" "") nd0).uri ≠ "https://example.com" ∧
    (xrefProcess (Xref.mk "uri" "https://example.com" "") nd0).uri = "" := by
  constructor <;> decide

/-- C7 amended: for a generic-URI cross-reference the classifier sets
the provenance URI to the literal address with the link label appended
only when both the address and a label are present; with an empty
address or an empty label the annotation is ignored and the node is
unchanged. -/
theorem xref_uri_label_required (x : Xref) (nd : Node) (ht : x.typ = "uri") :
    (x.data ≠ "" ∧ x.content ≠ "" →
      (xrefProcess x nd).uri = x.data ++ " " ++ x.content) ∧
    ((x.data = "" ∨ x.content = "") → xrefProcess x nd = nd) := by
  unfold xrefProcess processDataUsers
  constructor
  · rintro ⟨hd, hc⟩
    simp [ht, hd, hc]
  · rintro h2
    rcases h2 with hd | hc
    · simp [ht, hd]
    · by_cases hd : x.data = "" <;> simp [ht, hc, hd]

/-- C7 witness: the amended statement at a labelled URI xref. -/
theorem xref_uri_label_required_witness :
    (Xref.mk "uri" "https://x" "Label").typ = "uri" ∧
    (((Xref.mk "uri" "https://x" "Label").data ≠ "" ∧
        (Xref.mk "uri" "https://x" "Label").content ≠ "" →
      (xrefProcess (Xref.mk "uri" "https://x" "Label") nd0).uri =
        (Xref.mk "uri" "https://x" "Label").data ++ " " ++
          (Xref.mk "uri" "https://x" "Label").content) ∧
      (((Xref.mk "uri" "https://x" "Label").data = "" ∨
          (Xref.mk "uri" "https://x" "Label").content = "") →
        xrefProcess (Xref.mk "uri" "https://x" "Label") nd0 = nd0)) :=
  ⟨rfl, xref_uri_label_required (Xref.mk "uri" "https://x" "Label") nd0 rfl⟩

/-- C3: when a nested registry's derived dot path is allocated to a
tree node whose canonical dot notation differs from that path,
registry processing returns the fatal allocation error with the state
stopped at the pre-record phase (that registry's leaf records are not
processed and sub-registries are not entered), and the assembly driver
stops the whole import run on this first fatal error and reports it to
the caller. -/
theorem registry_path_mismatch_fatal (cfg : Config) (r : RegData) (subs : RegList)
    (st : DITState) (ps : List PersonEl) (ldap : Option SMIDoc)
    (pf : Option (List String)) (st0 : DITState)
    (hurn : alookup cfg.missingRegistryURNs r.id = none)
    (hoid : oidOf r ≠ "")
    (hdot : allocDotted st.tree (oidOf r) ≠ oidOf r)
    (hdot0 : allocDotted st0.tree (oidOf r) ≠ oidOf r) :
    unmarshalRecords cfg r st =
      ((unmarshalRecordsPre r st).1,
        some (mismatchMsg (allocDotted st.tree (oidOf r)) (oidOf r))) ∧
    registryUnmarshal cfg (Registry.mk r subs) st =
      ((unmarshalRecordsPre r st).1,
        some (mismatchMsg (allocDotted st.tree (oidOf r)) (oidOf r))) ∧
    (Import cfg
        (some ⟨some ⟨ps, RegList.cons (Registry.mk r RegList.nil) RegList.nil⟩, ldap, pf⟩)
        st0).2 =
      some (mismatchMsg (allocDotted st0.tree (oidOf r)) (oidOf r)) := by
  refine ⟨unmarshalRecords_mismatch cfg r st hoid hdot,
    registryUnmarshal_mismatch cfg r subs st hoid hdot, ?_⟩
  have h1 := loadSMI_single_mismatch cfg ps r st0 hurn hoid hdot0
  have h2 := import_stops_on_smi_error cfg
    ⟨some ⟨ps, RegList.cons (Registry.mk r RegList.nil) RegList.nil⟩, ldap, pf⟩ st0
    ⟨ps, RegList.cons (Registry.mk r RegList.nil) RegList.nil⟩ _ rfl h1
  rw [h2]

/-- C3 witness: a registry deriving path 1.3 over a store whose primed
node at that path carries the disagreeing canonical notation 9.9. -/
theorem registry_path_mismatch_fatal_witness :
    (alookup cfgEmpty.missingRegistryURNs regC3data.id = none) ∧
    (oidOf regC3data ≠ "") ∧
    (allocDotted stBad.tree (oidOf regC3data) ≠ oidOf regC3data) ∧
    (unmarshalRecords cfgEmpty regC3data stBad =
        ((unmarshalRecordsPre regC3data stBad).1,
          some (mismatchMsg (allocDotted stBad.tree (oidOf regC3data)) (oidOf regC3data))) ∧
      registryUnmarshal cfgEmpty (Registry.mk regC3data RegList.nil) stBad =
        ((unmarshalRecordsPre regC3data stBad).1,
          some (mismatchMsg (allocDotted stBad.tree (oidOf regC3data)) (oidOf regC3data))) ∧
      (Import cfgEmpty
          (some ⟨some ⟨[], RegList.cons (Registry.mk regC3data RegList.nil) RegList.nil⟩,
            none, none⟩)
          stBad).2 =
        some (mismatchMsg (allocDotted stBad.tree (oidOf regC3data)) (oidOf regC3data))) :=
  ⟨by decide, by decide, by decide,
    registry_path_mismatch_fatal cfgEmpty regC3data RegList.nil stBad [] none none stBad
      (by decide) (by decide) (by decide) (by decide)⟩

/-- C4 counterexample: importing a leaf record whose only
cross-reference is a note with code 1 does NOT mark any tree node's
lifecycle status obsolete — the record is skipped before any node is
allocated or enriched, so no node carries status OBSOLETE and the
record's own node 1.3.7 never comes into existence. -/
theorem record_note1_counterexample :
    ((recordsUnmarshal cfgEmpty [recC4] [1, 3] c4State).tree.all
      (fun n => n.status != "OBSOLETE")) = true ∧
    findNode (recordsUnmarshal cfgEmpty [recC4] [1, 3] c4State).tree [1, 3, 7] = none := by
  constructor <;> decide

/-- C4 amended: a leaf record that the obsolescence test flags (its
first note- or text-typed cross-reference being a note with code 1, or
a text reading obsolete) is excluded from the import entirely:
processing it is a no-op, so no node is allocated or enriched for it
and no lifecycle status is set anywhere. -/
theorem record_obsolete_skipped (cfg : Config) (parentPath : List Nat) (st : DITState)
    (rec : Record) (rest : List Record) (h : recordObsolete rec = true) :
    recordsUnmarshal cfg (rec :: rest) parentPath st =
      recordsUnmarshal cfg rest parentPath st := by
  have hstep : recordsUnmarshalStep cfg parentPath st rec = st := by
    unfold recordsUnmarshalStep
    simp [h]
  unfold recordsUnmarshal
  simp [hstep]

/-- C4 witness: the amended statement at the note-1 record. -/
theorem record_obsolete_skipped_witness :
    recordObsolete recC4 = true ∧
    recordsUnmarshal cfgEmpty [recC4] [1, 3] c4State =
      recordsUnmarshal cfgEmpty [] [1, 3] c4State :=
  ⟨by decide, record_obsolete_skipped cfgEmpty [1, 3] c4State recC4 [] (by decide)⟩

/-- C6: evaluation of the scanner at the failing input.  Two complete
four-line groups with no blank line between them, scanned from the
start of the post-header region, do NOT come out as the two groups:
because the scanner's initial accumulator is the Go zero value
(Decimal 0) rather than the reset value (Decimal -1), the first group
is emitted after only three lines with its fields shifted
(Decimal 0, Name "1", Contact "Foo", Email "Bar") and the line "x@y"
is swallowed by the failed decimal scan; only the second group parses
as written. -/
theorem pen_scanner_adjacent_groups_eval :
    scanPEN ["1", "Foo", "Bar", "x@y", "2", "Baz", "Qux", "a@b"] =
      [⟨0, "1", "Foo", "Bar"⟩, ⟨2, "Baz", "Qux", "a@b"⟩] ∧
    scanPEN ["1", "Foo", "Bar", "x@y", "2", "Baz", "Qux", "a@b"] ≠
      [⟨1, "Foo", "Bar", "x@y"⟩, ⟨2, "Baz", "Qux", "a@b"⟩] := by
  constructor <;> decide

end Radit
